import Mathlib

/-!
# Verification of the asterisk-manager-interface protocol core

Shallow embedding of the repository's protocol engine:
* `cleanValue` and the JS string helpers it uses (src/payload-manager.ts lines 25-40),
* the `PayloadManager` frame decoder (`incoming` / `process` / `stop` / `start` / `flush`,
  src/payload-manager.ts lines 46-157),
* the request/response correlation handler installed by
  `AsteriskManagerInterface.write` (asterisk-manager-interface.ts lines 483-549),
* `login` and the auto-login guard of `write`.

JS strings are modelled as `List Char`; JS `Buffer` accumulates wire bytes that the
source immediately re-reads as text, so it is modelled as `List Char` as well.
JS numbers are modelled as `ℚ` (all numbers the engine produces are finite), with
`Option` used where the source can produce `NaN`.
-/

/-- A JS string: a list of characters. -/
abbrev JStr := List Char

/-- Whitespace recognised by JS `String.prototype.trim` (ASCII subset: space, tab,
line feed, carriage return, vertical tab, form feed). -/
def isJsWhitespace (c : Char) : Bool :=
  c = ' ' || c = '\t' || c = '\n' || c = '\r' || c.toNat = 11 || c.toNat = 12

/-- JS `s.trim()`: drop whitespace from both ends. -/
def jsTrim (s : JStr) : JStr :=
  ((s.dropWhile isJsWhitespace).reverse.dropWhile isJsWhitespace).reverse

/-- JS `s.toLowerCase()` on a single character (ASCII range, which covers every
string the source compares). -/
def jsToLowerChar (c : Char) : Char :=
  if 65 ≤ c.toNat ∧ c.toNat ≤ 90 then Char.ofNat (c.toNat + 32) else c

/-- JS `s.toLowerCase()`. -/
def jsToLower (s : JStr) : JStr := s.map jsToLowerChar

/-- Does `s` start with `p`? (helper for `jsIncludes`). -/
def listStartsWith : JStr → JStr → Bool
  | _, [] => true
  | [], _ :: _ => false
  | c :: cs, p :: ps => c = p && listStartsWith cs ps

/-- JS `s.includes(needle)`: substring containment. -/
def jsIncludes : JStr → JStr → Bool
  | [], needle => needle.isEmpty
  | c :: rest, needle => listStartsWith (c :: rest) needle || jsIncludes rest needle

/-- Numeric value of a string of decimal digits. -/
def natFromDigits (ds : JStr) : Nat :=
  ds.foldl (fun acc c => 10 * acc + (c.toNat - 48)) 0

/-- Numeric value of a string of hexadecimal digits. -/
def natFromHexDigits (ds : JStr) : Nat :=
  ds.foldl (fun acc c =>
    16 * acc + (if c.isDigit then c.toNat - 48
                else if 'a' ≤ c ∧ c ≤ 'f' then c.toNat - 87
                else c.toNat - 55)) 0

/-- Magnitude part of JS `parseInt` (radix auto-detection: a `0x`/`0X` prefix selects
hexadecimal, otherwise the longest decimal-digit run is taken); `none` models `NaN`. -/
def jsParseIntCore (s : JStr) : Option Nat :=
  match s with
  | '0' :: 'x' :: r =>
    let ds := r.takeWhile (fun c => c.isDigit || ('a' ≤ c ∧ c ≤ 'f') || ('A' ≤ c ∧ c ≤ 'F'))
    if ds.isEmpty then none else some (natFromHexDigits ds)
  | '0' :: 'X' :: r =>
    let ds := r.takeWhile (fun c => c.isDigit || ('a' ≤ c ∧ c ≤ 'f') || ('A' ≤ c ∧ c ≤ 'F'))
    if ds.isEmpty then none else some (natFromHexDigits ds)
  | r =>
    let ds := r.takeWhile (fun c => c.isDigit)
    if ds.isEmpty then none else some (natFromDigits ds)

/-- JS `parseInt(s)` (no radix argument): skip leading whitespace, optional sign,
then the longest valid digit run; `none` models `NaN`. -/
def jsParseInt (s : JStr) : Option Int :=
  match s.dropWhile isJsWhitespace with
  | '-' :: r => (jsParseIntCore r).map (fun n => -(n : Int))
  | '+' :: r => (jsParseIntCore r).map (fun n => (n : Int))
  | r => (jsParseIntCore r).map (fun n => (n : Int))

/-- Exponent suffix of JS `parseFloat` (`e`/`E`, optional sign, digits); a malformed
exponent is ignored, matching JS. -/
def jsParseFloatExp (s : JStr) : Int :=
  match s with
  | 'e' :: r | 'E' :: r =>
    match r with
    | '-' :: d => let ds := d.takeWhile (fun c => c.isDigit)
                  if ds.isEmpty then 0 else -(natFromDigits ds : Int)
    | '+' :: d => let ds := d.takeWhile (fun c => c.isDigit)
                  if ds.isEmpty then 0 else (natFromDigits ds : Int)
    | d => let ds := d.takeWhile (fun c => c.isDigit)
           if ds.isEmpty then 0 else (natFromDigits ds : Int)
  | _ => 0

/-- JS `parseFloat(s)` restricted to finite decimal notation (sign, integer part,
fraction, exponent); `none` models `NaN`.  The only call site in the source is the
unreachable `QualifyTimeout` branch of `cleanValue` (see
`jsToLower_ne_qualifyTimeout`), so `Infinity` literals are not modelled. -/
def jsParseFloat (s : JStr) : Option ℚ :=
  let t := s.dropWhile isJsWhitespace
  let sign : ℚ := match t with
    | '-' :: _ => -1
    | _ => 1
  let t₁ : JStr := match t with
    | '-' :: r => r
    | '+' :: r => r
    | r => r
  let ipart := t₁.takeWhile (fun c => c.isDigit)
  let t₂ := t₁.dropWhile (fun c => c.isDigit)
  match t₂ with
  | '.' :: r =>
    let fpart := r.takeWhile (fun c => c.isDigit)
    if ipart.isEmpty ∧ fpart.isEmpty then none
    else
      let base : ℚ := (natFromDigits ipart : ℚ) + (natFromDigits fpart : ℚ) / ((10 : ℚ) ^ fpart.length)
      some (sign * base * (10 : ℚ) ^ (jsParseFloatExp (r.dropWhile (fun c => c.isDigit))))
  | rest =>
    if ipart.isEmpty then none
    else some (sign * (natFromDigits ipart : ℚ) * (10 : ℚ) ^ (jsParseFloatExp rest))

deriving instance DecidableEq for Except

/-- A JS value as produced by `cleanValue`: a boolean, a string, or a number. -/
inductive JSValue where
  | bool (b : Bool)
  | str (s : JStr)
  | num (q : ℚ)
deriving DecidableEq

/-- `parseFloat(value || '0') || 0`: empty input is replaced by `'0'`, `NaN` (and `0`
itself) collapse to `0`. -/
def floatOrZero (value : JStr) : ℚ :=
  match jsParseFloat (if value.isEmpty then ['0'] else value) with
  | none => 0
  | some q => q

/-- `parseInt(value || '0') || 0`: empty input is replaced by `'0'`, `NaN` (and `0`
itself) collapse to `0`. -/
def intOrZero (value : JStr) : Int :=
  match jsParseInt (if value.isEmpty then ['0'] else value) with
  | none => 0
  | some n => n

/-- `cleanValue` from src/payload-manager.ts lines 25-40: coerce a raw field value
according to the value itself and the field name.  Note that the source compares
`name.toLowerCase()` against the mixed-case literal `'QualifyTimeout'`. -/
def cleanValue (value : JStr) (name : JStr) : JSValue :=
  if jsToLower value = "yes".data then .bool true
  else if jsToLower value = "no".data then .bool false
  else if jsToLower value = "(null)".data ∨ jsToLower value = "-none-".data then .str []
  else if jsToLower name = "QualifyTimeout".data then .num (floatOrZero value)
  else if jsIncludes (jsToLower name) "port".data then .num ((intOrZero value : ℤ) : ℚ)
  else .str value

example : cleanValue "YES".data "Dynamic".data = .bool true := by decide
example : cleanValue "no".data "Dynamic".data = .bool false := by decide
example : cleanValue "(NULL)".data "Description".data = .str [] := by decide
example : cleanValue "5038".data "SomePort".data = .num 5038 := by decide
example : cleanValue "abc".data "IPport".data = .num 0 := by decide
example : cleanValue "3.5".data "QualifyTimeout".data = .str "3.5".data := by decide
example : cleanValue "OK (5 ms)".data "Status".data = .str "OK (5 ms)".data := by decide

/-- `Char.ofNat` of a scalar value below the surrogate range keeps its numeric value. -/
theorem toNat_charOfNat_of_valid (n : Nat) (h : n < 55296) : (Char.ofNat n).toNat = n := by
  have hv : n.isValidChar := Or.inl h
  simp [Char.ofNat, hv, Char.ofNatAux, Char.toNat, UInt32.toNat, BitVec.toNat_ofNatLt]

/-- No character lowercases to the uppercase letter `Q`. -/
theorem jsToLowerChar_ne_Q (c : Char) : jsToLowerChar c ≠ 'Q' := by
  unfold jsToLowerChar
  split
  · rename_i h
    intro hEq
    have h2 : (Char.ofNat (c.toNat + 32)).toNat = ('Q' : Char).toNat := by rw [hEq]
    rw [toNat_charOfNat_of_valid (c.toNat + 32) (by omega)] at h2
    have : ('Q' : Char).toNat = 81 := by decide
    omega
  · rename_i h
    intro hEq
    have : c.toNat = 81 := by rw [hEq]; decide
    omega

/-- The comparison `name.toLowerCase() === 'QualifyTimeout'` in `cleanValue` can never
hold: a lowercased string cannot contain the uppercase `Q` the literal starts with.
The floating-point branch of `cleanValue` is therefore unreachable. -/
theorem jsToLower_ne_qualifyTimeout (s : JStr) : jsToLower s ≠ "QualifyTimeout".data := by
  intro h
  cases s with
  | nil => exact absurd h (by decide)
  | cons c t =>
    have h1 : jsToLowerChar c :: jsToLower t = "QualifyTimeout".data := by
      simpa [jsToLower] using h
    have h2 : "QualifyTimeout".data = 'Q' :: "ualifyTimeout".data := by decide
    rw [h2] at h1
    exact jsToLowerChar_ne_Q c (List.cons.inj h1).1

/-- C4 (code bug): coercing a field named `QualifyTimeout` does NOT return the
floating-point parse of the value: the guard `name.toLowerCase() === 'QualifyTimeout'`
is unsatisfiable for every name (second conjunct), so the value `3.5` comes back as
the raw string `"3.5"` instead of the number `3.5` the spec (and the repository's own
`PJSIP.Contact` type, which declares `QualifyTimeout: number`) require. -/
theorem c4_qualify_timeout_branch_dead :
    cleanValue "3.5".data "QualifyTimeout".data = .str "3.5".data ∧
    ∀ name : JStr, jsToLower name ≠ "QualifyTimeout".data :=
  ⟨by decide, jsToLower_ne_qualifyTimeout⟩

/-- C7: `cleanValue` coerces `yes`/`no` (any casing) to booleans, `(null)`/`-none-`
(any casing) to the empty string, and otherwise a field whose name contains `port`
case-insensitively to the integer parse of the value with `0` for an unparsable
value; the rules apply in that priority order. -/
theorem c7_clean_value_rules (value name : JStr) :
    (jsToLower value = "yes".data → cleanValue value name = .bool true) ∧
    (jsToLower value = "no".data → cleanValue value name = .bool false) ∧
    (jsToLower value = "(null)".data ∨ jsToLower value = "-none-".data →
      cleanValue value name = .str []) ∧
    (jsToLower value ≠ "yes".data → jsToLower value ≠ "no".data →
      jsToLower value ≠ "(null)".data → jsToLower value ≠ "-none-".data →
      jsIncludes (jsToLower name) "port".data = true →
      cleanValue value name = .num (((jsParseInt value).getD 0 : ℤ) : ℚ)) := by
  refine ⟨?_, ?_, ?_, ?_⟩
  · intro h
    simp [cleanValue, h]
  · intro h
    have hne : jsToLower value ≠ "yes".data := by rw [h]; decide
    simp [cleanValue, h, hne]
  · intro h
    have hy : jsToLower value ≠ "yes".data := by
      rcases h with h | h <;> rw [h] <;> decide
    have hn : jsToLower value ≠ "no".data := by
      rcases h with h | h <;> rw [h] <;> decide
    simp [cleanValue, hy, hn, h]
  · intro h1 h2 h3 h4 hport
    have hqt := jsToLower_ne_qualifyTimeout name
    have hval : intOrZero value = (jsParseInt value).getD 0 := by
      cases value with
      | nil => decide
      | cons c t =>
        simp only [intOrZero, List.isEmpty_cons, if_neg]
        cases hp : jsParseInt (c :: t) <;> simp [hp]
    rw [← hval]
    simp [cleanValue, h1, h2, h3, h4, hqt, hport]

/-- Concrete instantiation of `c7_clean_value_rules` discharging each hypothesis. -/
theorem c7_clean_value_rules_witness :
    cleanValue "YES".data "IPport".data = .bool true ∧
    cleanValue "No".data "Dynamic".data = .bool false ∧
    cleanValue "-None-".data "Description".data = .str [] ∧
    cleanValue "5038".data "SomePort".data = .num 5038 ∧
    cleanValue "abc".data "IPport".data = .num 0 := by
  refine ⟨(c7_clean_value_rules "YES".data "IPport".data).1 (by decide),
          (c7_clean_value_rules "No".data "Dynamic".data).2.1 (by decide),
          (c7_clean_value_rules "-None-".data "Description".data).2.2.1 (by decide),
          ?_, ?_⟩
  · have h := (c7_clean_value_rules "5038".data "SomePort".data).2.2.2
      (by decide) (by decide) (by decide) (by decide) (by decide)
    rw [h]; decide
  · have h := (c7_clean_value_rules "abc".data "IPport".data).2.2.2
      (by decide) (by decide) (by decide) (by decide) (by decide)
    rw [h]; decide

/-- A JS object as built by the decoder: an insertion-ordered map from field name to
coerced value (`this.object` in `PayloadManager`, and every emitted packet). -/
abbrev JSObj := List (JStr × JSValue)

/-- JS property assignment `o[k] = v`: an existing key keeps its position and is
overwritten, a new key is appended. -/
def objSet (o : JSObj) (k : JStr) (v : JSValue) : JSObj :=
  if o.any (fun p => p.1 == k) then o.map (fun p => if p.1 == k then (k, v) else p)
  else o ++ [(k, v)]

/-- JS property read `o[k]`: `none` models `undefined`. -/
def getField (o : JSObj) (k : JStr) : Option JSValue :=
  (o.find? (fun p => p.1 == k)).map Prod.snd

/-- Index of the first occurrence of `\r\n` in the buffer
(`this._buffer.indexOf('\r\n')`, with `none` for `-1`). -/
def findCRLF : JStr → Option Nat
  | [] => none
  | [_] => none
  | c₁ :: c₂ :: rest =>
    if c₁ = '\r' ∧ c₂ = '\n' then some 0
    else (findCRLF (c₂ :: rest)).map (fun i => i + 1)

/-- A buffer matched by `findCRLF` is nonempty. -/
theorem findCRLF_pos {b : JStr} {i : Nat} (h : findCRLF b = some i) : 0 < b.length := by
  cases b with
  | nil => simp [findCRLF] at h
  | cons c t => simp

/-- The index returned by `findCRLF` points at a `\r\n` pair inside the buffer. -/
theorem findCRLF_le {b : JStr} {i : Nat} (h : findCRLF b = some i) : i + 2 ≤ b.length := by
  induction b generalizing i with
  | nil => simp [findCRLF] at h
  | cons c t ih =>
    cases t with
    | nil => simp [findCRLF] at h
    | cons c₂ rest =>
      rw [findCRLF] at h
      split at h
      · cases h
        simp
      · rcases Option.map_eq_some'.mp h with ⟨j, hj, rfl⟩
        have := ih hj
        simp at this ⊢
        omega

/-- The first `\r\n` of `b₁` is still the first `\r\n` of `b₁ ++ b₂`. -/
theorem findCRLF_append {b₁ : JStr} {i : Nat} (b₂ : JStr) (h : findCRLF b₁ = some i) :
    findCRLF (b₁ ++ b₂) = some i := by
  induction b₁ generalizing i with
  | nil => simp [findCRLF] at h
  | cons c t ih =>
    cases t with
    | nil => simp [findCRLF] at h
    | cons c₂ rest =>
      rw [findCRLF] at h
      rw [List.cons_append, List.cons_append, findCRLF]
      split at h
      · rename_i hrn
        cases h
        rw [if_pos hrn]
      · rename_i hrn
        rw [if_neg hrn]
        rcases Option.map_eq_some'.mp h with ⟨j, hj, rfl⟩
        rw [← List.cons_append, ih hj]
        rfl

/-- JS `line.split(':')`: split on every occurrence of `:` (always at least one part). -/
def jsSplit : JStr → List JStr
  | [] => [[]]
  | ':' :: rest => [] :: jsSplit rest
  | c :: rest =>
    match jsSplit rest with
    | [] => [[c]]
    | g :: gs => (c :: g) :: gs

example : jsSplit "Response: Success".data = ["Response".data, " Success".data] := by decide
example : jsSplit "Variable: a:b".data = ["Variable".data, " a".data, "b".data] := by decide

/-- The per-line body of `PayloadManager.process` (src/payload-manager.ts lines
131-155): the raw slice (up to and including its `\r\n`) is trimmed; a banner line is
dropped; a blank line emits the in-progress object when it has at least one field and
always resets it; otherwise the line is split at `:` into key and value (a line
without a key is dropped — in the source `parts.shift()` of an empty split is
`undefined`, caught by `if (!key)`).  Returns the new in-progress object and the
emitted packet, if any. -/
def processLine (obj : JSObj) (raw : JStr) : JSObj × Option JSObj :=
  let line := jsTrim raw
  if jsIncludes line "Asterisk Call Manager".data then (obj, none)
  else if line = [] then
    ([], if obj = [] then none else some obj)
  else
    match jsSplit line with
    | [] => (obj, none)
    | part :: parts =>
      let key := jsTrim part
      if key = [] then (obj, none)
      else (objSet obj key (cleanValue (jsTrim (List.intercalate [':'] parts)) key), none)

/-- Result of one decode pass: the remaining buffer, the in-progress object, and the
packets emitted during the pass, in order. -/
structure ProcResult where
  buffer : JStr
  object : JSObj
  packets : List JSObj
deriving DecidableEq

/-- The `while` loop of `PayloadManager.process` with an explicit iteration bound:
each iteration consumes at least two characters of the buffer, so the buffer length
bounds the number of iterations (see `processFuel_congr`). -/
def processFuel : Nat → JStr → JSObj → ProcResult
  | 0, b, o => ⟨b, o, []⟩
  | fuel + 1, b, o =>
    match findCRLF b with
    | none => ⟨b, o, []⟩
    | some i =>
      let pr := processLine o (b.take (i + 2))
      let r := processFuel fuel (b.drop (i + 2)) pr.1
      ⟨r.buffer, r.object, pr.2.toList ++ r.packets⟩

/-- `processFuel` does not depend on the fuel once it covers the buffer length. -/
theorem processFuel_congr :
    ∀ (f₁ f₂ : Nat) (b : JStr) (o : JSObj), b.length ≤ f₁ → b.length ≤ f₂ →
      processFuel f₁ b o = processFuel f₂ b o := by
  intro f₁
  induction f₁ with
  | zero =>
    intro f₂ b o h₁ h₂
    have hb : b = [] := List.length_eq_zero.mp (Nat.le_zero.mp h₁)
    subst hb
    cases f₂ <;> rfl
  | succ f ih =>
    intro f₂ b o h₁ h₂
    cases f₂ with
    | zero =>
      have hb : b = [] := List.length_eq_zero.mp (Nat.le_zero.mp h₂)
      subst hb
      rfl
    | succ g =>
      cases hfc : findCRLF b with
      | none => simp [processFuel, hfc]
      | some i =>
        have hle := findCRLF_le hfc
        simp only [processFuel, hfc]
        rw [ih g (b.drop (i + 2)) (processLine o (b.take (i + 2))).1
          (by simp; omega) (by simp; omega)]

/-- `PayloadManager.process` (src/payload-manager.ts lines 125-157): repeatedly
extract the next complete `\r\n`-terminated line from the buffer and feed it to
`processLine`; stop as soon as no complete line remains. -/
def process (b : JStr) (o : JSObj) : ProcResult :=
  processFuel b.length b o

/-- Unfolding `process` when the buffer holds no complete line. -/
theorem process_eq_none {b : JStr} {o : JSObj} (h : findCRLF b = none) :
    process b o = ⟨b, o, []⟩ := by
  unfold process
  cases hb : b.length with
  | zero => rfl
  | succ k => simp [processFuel, h]

/-- Unfolding `process` when the buffer's first complete line ends at `i + 2`. -/
theorem process_eq_some {b : JStr} {o : JSObj} {i : Nat} (h : findCRLF b = some i) :
    process b o =
      ⟨(process (b.drop (i + 2)) (processLine o (b.take (i + 2))).1).buffer,
       (process (b.drop (i + 2)) (processLine o (b.take (i + 2))).1).object,
       (processLine o (b.take (i + 2))).2.toList ++
         (process (b.drop (i + 2)) (processLine o (b.take (i + 2))).1).packets⟩ := by
  have h2 := findCRLF_le h
  unfold process
  obtain ⟨k, hk⟩ : ∃ k, b.length = k + 1 := ⟨b.length - 1, by omega⟩
  rw [hk]
  simp only [processFuel, h]
  rw [processFuel_congr k (b.drop (i + 2)).length (b.drop (i + 2))
    (processLine o (b.take (i + 2))).1 (by simp; omega) (Nat.le_refl _)]

/-- Continuing a finished pass `r` after more data `b₂` arrives. -/
def processCont (r : ProcResult) (b₂ : JStr) : ProcResult :=
  ⟨(process (r.buffer ++ b₂) r.object).buffer,
   (process (r.buffer ++ b₂) r.object).object,
   r.packets ++ (process (r.buffer ++ b₂) r.object).packets⟩

/-- Decoding `b₁ ++ b₂` in one pass is the same as decoding `b₁`, appending `b₂` to
the leftover buffer, and decoding again (fuel-indexed form). -/
theorem process_append_aux :
    ∀ (n : Nat) (b₁ : JStr), b₁.length ≤ n → ∀ (o : JSObj) (b₂ : JStr),
      process (b₁ ++ b₂) o = processCont (process b₁ o) b₂ := by
  intro n
  induction n with
  | zero =>
    intro b₁ hlen o b₂
    have hb : b₁ = [] := List.length_eq_zero.mp (Nat.le_zero.mp hlen)
    subst hb
    have h0 : process [] o = ⟨[], o, []⟩ := process_eq_none rfl
    rw [h0]
    simp [processCont]
  | succ n ih =>
    intro b₁ hlen o b₂
    cases hfc : findCRLF b₁ with
    | none =>
      rw [process_eq_none hfc]
      simp [processCont]
    | some i =>
      have hle := findCRLF_le hfc
      rw [process_eq_some hfc, process_eq_some (findCRLF_append b₂ hfc)]
      rw [List.take_append_of_le_length (by omega), List.drop_append_of_le_length (by omega)]
      rw [ih (b₁.drop (i + 2)) (by simp; omega) (processLine o (b₁.take (i + 2))).1 b₂]
      simp [processCont, List.append_assoc]

/-- Decoding `b₁ ++ b₂` in one pass is the same as decoding `b₁`, appending `b₂` to
the leftover buffer, and decoding again. -/
theorem process_append (b₁ : JStr) (o : JSObj) (b₂ : JStr) :
    process (b₁ ++ b₂) o = processCont (process b₁ o) b₂ :=
  process_append_aux b₁.length b₁ (Nat.le_refl _) o b₂

/-- A trimmed-blank line never carries the banner, so `processLine` takes the
blank-line branch: emit the in-progress object iff it has at least one field, and
reset it in all cases. -/
theorem processLine_blank (o : JSObj) (raw : JStr) (h : jsTrim raw = []) :
    processLine o raw = ([], if o = [] then none else some o) := by
  simp only [processLine, h]
  simp [jsIncludes]

/-- Decoding a buffer holding exactly one blank line emits the in-progress object
iff it is nonempty, and leaves an empty object and buffer. -/
theorem process_single_crlf (o : JSObj) :
    process ['\r', '\n'] o = ⟨[], [], if o = [] then [] else [o]⟩ := by
  rw [process_eq_some (show findCRLF ['\r', '\n'] = some 0 from by decide)]
  rw [processLine_blank o _ (by decide)]
  rw [show List.drop (0 + 2) ['\r', '\n'] = [] from by decide]
  rw [process_eq_none (show findCRLF [] = none from rfl)]
  by_cases h : o = [] <;> simp [h]

/-- If `processLine` emits a packet, the packet is the previous in-progress object
and it has at least one field. -/
theorem processLine_emit {o o' : JSObj} {raw : JStr} {p : JSObj}
    (h : processLine o raw = (o', some p)) : p = o ∧ o ≠ [] := by
  simp only [processLine] at h
  split at h
  · simp at h
  · split at h
    · by_cases ho : o = []
      · rw [if_pos ho] at h
        simp at h
      · rw [if_neg ho] at h
        obtain ⟨h1, h2⟩ := Prod.mk.inj h
        exact ⟨(Option.some.inj h2).symm, ho⟩
    · split at h
      · simp at h
      · split at h
        · simp at h
        · simp at h

/-- Every packet emitted during a decode pass has at least one field
(fuel-indexed form). -/
theorem process_packets_ne_nil_aux :
    ∀ (n : Nat) (b : JStr), b.length ≤ n → ∀ (o : JSObj) (p : JSObj),
      p ∈ (process b o).packets → p ≠ [] := by
  intro n
  induction n with
  | zero =>
    intro b hlen o p hp
    have hb : b = [] := List.length_eq_zero.mp (Nat.le_zero.mp hlen)
    subst hb
    rw [process_eq_none (show findCRLF [] = none from rfl)] at hp
    cases hp
  | succ n ih =>
    intro b hlen o p hp
    cases hfc : findCRLF b with
    | none =>
      rw [process_eq_none hfc] at hp
      cases hp
    | some i =>
      rw [process_eq_some hfc] at hp
      rcases List.mem_append.mp hp with hl | hr
      · cases hpl : (processLine o (b.take (i + 2))).2 with
        | none => rw [hpl] at hl; cases hl
        | some q =>
          rw [hpl] at hl
          have hq : p = q := by simpa using hl
          have hpl2 : processLine o (b.take (i + 2)) =
              ((processLine o (b.take (i + 2))).1, some q) := by
            rw [← hpl]
          have hemit := processLine_emit hpl2
          rw [hq, hemit.1]
          exact hemit.2
      · have hlt : (b.drop (i + 2)).length ≤ n := by
          have := findCRLF_pos hfc
          simp
          omega
        exact ih (b.drop (i + 2)) hlt _ p hr

/-- Every packet emitted during a decode pass has at least one field. -/
theorem process_packets_ne_nil (b : JStr) (o : JSObj) (p : JSObj)
    (hp : p ∈ (process b o).packets) : p ≠ [] :=
  process_packets_ne_nil_aux b.length b (Nat.le_refl _) o p hp

/-- State of a `PayloadManager` instance: the byte accumulator `_buffer`, the
in-progress packet `object`, the decode interval, and whether the tick timer is
live (src/payload-manager.ts lines 46-58). -/
structure PayloadManager where
  interval : Nat
  buffer : JStr
  object : JSObj
  timerRunning : Bool
deriving DecidableEq

/-- `PayloadManager.flush` (lines 105-109): reset the byte accumulator only; the
in-progress `object` is untouched. -/
def PayloadManager.flush (s : PayloadManager) : PayloadManager :=
  { s with buffer := [] }

/-- `PayloadManager.stop` (lines 71-75): destroy the timer, then flush. -/
def PayloadManager.stop (s : PayloadManager) : PayloadManager :=
  PayloadManager.flush { s with timerRunning := false }

/-- `PayloadManager.start` (lines 82-100): record the interval, flush, and arm a
fresh timer.  The source defaults the argument to the current interval. -/
def PayloadManager.start (s : PayloadManager) (interval : Nat) : PayloadManager :=
  { PayloadManager.flush { s with interval := interval } with timerRunning := true }

/-- `PayloadManager.incoming` (lines 116-118): append the data to the accumulator;
no decoding happens here. -/
def PayloadManager.incoming (s : PayloadManager) (data : JStr) : PayloadManager :=
  { s with buffer := s.buffer ++ data }

/-- One scheduled decode pass (the timer `tick` handler, lines 89-99): run
`process` over the buffer and emit its packets. -/
def PayloadManager.tick (s : PayloadManager) : PayloadManager × List JSObj :=
  ({ s with buffer := (process s.buffer s.object).buffer,
            object := (process s.buffer s.object).object },
   (process s.buffer s.object).packets)

/-- C10: `stop()` flushes only the byte accumulator; the in-progress packet object
survives `stop()` followed by `start()`, and its fields appear in the first packet
emitted after the restart (decoding a lone blank line then emits exactly the
pre-stop in-progress object, when it was nonempty). -/
theorem c10_stop_preserves_object (s : PayloadManager) :
    ((s.stop.start s.interval).object = s.object ∧
      (s.stop.start s.interval).buffer = []) ∧
    ((s.stop.start s.interval).incoming ['\r', '\n']).tick =
      ({ interval := s.interval, buffer := [], object := [], timerRunning := true },
       if s.object = [] then [] else [s.object]) := by
  constructor
  · exact ⟨rfl, rfl⟩
  · show ((PayloadManager.mk s.interval [] s.object true).incoming ['\r', '\n']).tick = _
    simp only [PayloadManager.incoming, PayloadManager.tick]
    rw [show ([] : JStr) ++ ['\r', '\n'] = ['\r', '\n'] from rfl]
    rw [process_single_crlf]

/-- C8: during a decode pass, a blank line emits the in-progress packet iff it has
at least one field — a zero-field packet is never emitted — and the in-progress
packet is reset after every blank line whether or not a packet was emitted. -/
theorem c8_blank_line_boundary :
    (∀ (o : JSObj) (raw : JStr), jsTrim raw = [] →
      processLine o raw = ([], if o = [] then none else some o)) ∧
    (∀ (b : JStr) (o p : JSObj), p ∈ (process b o).packets → p ≠ []) :=
  ⟨processLine_blank, process_packets_ne_nil⟩

/-- Concrete instantiation of `c8_blank_line_boundary`: a blank line after one
field emits that one-field packet and resets the in-progress packet; a blank line
with no fields emits nothing; and the packet decoded from
`Response: Success\r\n\r\n` is nonempty. -/
theorem c8_blank_line_boundary_witness :
    processLine [("Response".data, JSValue.str "Success".data)] "\r\n".data =
      ([], some [("Response".data, JSValue.str "Success".data)]) ∧
    processLine [] "\r\n".data = ([], none) ∧
    [("Response".data, JSValue.str "Success".data)] ≠ ([] : JSObj) := by
  refine ⟨?_, ?_, ?_⟩
  · rw [c8_blank_line_boundary.1 _ _ (by decide)]
    rfl
  · rw [c8_blank_line_boundary.1 _ _ (by decide)]
    rfl
  · exact c8_blank_line_boundary.2 "Response: Success\r\n\r\n".data [] _ (by decide)

/-- An interaction step with the decoder: bytes arriving from the socket
(`incoming`) or a scheduled decode pass (the timer tick running `process`). -/
inductive PMOp where
  | incoming (data : JStr)
  | tick
deriving DecidableEq

/-- Run a sequence of decoder operations, collecting every packet emitted by the
interleaved decode passes, in order. -/
def runOps (s : PayloadManager) : List PMOp → PayloadManager × List JSObj
  | [] => (s, [])
  | PMOp.incoming d :: rest => runOps (s.incoming d) rest
  | PMOp.tick :: rest =>
    let t := s.tick
    let r := runOps t.1 rest
    (r.1, t.2 ++ r.2)

/-- The concatenation of all chunks fed by a sequence of operations. -/
def opsData : List PMOp → JStr
  | [] => []
  | PMOp.incoming d :: rest => d ++ opsData rest
  | PMOp.tick :: rest => opsData rest

/-- C3: feeding chunks through `incoming` with decode passes interleaved
arbitrarily, then one final pass, produces exactly the same state (buffer and
in-progress packet, so no trailing data is lost or reordered) and the same emitted
packet sequence as feeding the whole byte sequence in one `incoming` call followed
by a single decode pass. -/
theorem c3_chunk_boundary_independence (s : PayloadManager) (ops : List PMOp) :
    runOps s (ops ++ [PMOp.tick]) =
      runOps s [PMOp.incoming (opsData ops), PMOp.tick] := by
  induction ops generalizing s with
  | nil =>
    simp [runOps, opsData, PayloadManager.incoming]
  | cons op rest ih =>
    cases op with
    | incoming d =>
      rw [List.cons_append]
      show runOps (s.incoming d) (rest ++ [PMOp.tick]) = _
      rw [ih (s.incoming d)]
      simp [runOps, opsData, PayloadManager.incoming, PayloadManager.tick,
        List.append_assoc]
    | tick =>
      rw [List.cons_append]
      show (let t := s.tick
            let r := runOps t.1 (rest ++ [PMOp.tick])
            (r.1, t.2 ++ r.2)) = _
      simp only
      rw [ih s.tick.1]
      simp only [runOps, opsData, PayloadManager.incoming, PayloadManager.tick]
      have happ := process_append s.buffer s.object (opsData rest)
      rw [show s.buffer ++ opsData rest = s.buffer ++ opsData rest from rfl] at happ
      simp only [processCont] at happ
      simp [happ]

/-- JS truthiness of a property read: `undefined`, `false`, the empty string and
`0` are falsy. -/
def truthy : Option JSValue → Bool
  | none => false
  | some (.bool b) => b
  | some (.str s) => !s.isEmpty
  | some (.num q) => decide (q ≠ 0)

/-- `result[0].Message.includes('follow')` as evaluated by the handler.  Field
values reaching the handler come from `cleanValue`, which only ever stores a
string under `Message`; a truthy non-string `Message` would make the source throw
a `TypeError` instead, a corner no theorem below relies on. -/
def includesFollowV : Option JSValue → Bool
  | some (.str s) => jsIncludes s "follow".data
  | _ => false

/-- `parseInt(last.ListItems)`: JS coerces the argument to a string first; for the
string values `cleanValue` stores this is `jsParseInt`, booleans and `undefined`
parse to `NaN`, and a (never-occurring) numeric value would be truncated. -/
def jsParseIntOfValue : Option JSValue → Option Int
  | some (.str s) => jsParseInt s
  | some (.bool _) => none
  | some (.num q) => some (Int.tdiv q.num q.den)
  | none => none

/-- How a pending `write` promise was settled. -/
inductive WriteOutcome where
  | rejected (msg : Option JSValue)
  | resolvedSingle (p : JSObj)
  | resolvedList (response message actionID : Option JSValue)
      (list : List JSObj) (listItems : Option Int)
deriving DecidableEq

/-- State of the per-request `handler` closure in `AsteriskManagerInterface.write`
(asterisk-manager-interface.ts lines 504-543): the `result` array and how the
promise was settled, if it was.  A settled handler has been removed from the
`response` listeners, so later packets leave the state unchanged. -/
structure HandlerState where
  result : List JSObj
  outcome : Option WriteOutcome
deriving DecidableEq

/-- One invocation of the `handler` closure on a decoded packet (lines 506-541):
append a packet whose `ActionID` matches the request's uuid; bail out while no
packet has matched; reject on a non-`Success` first packet; resolve immediately
when the first packet's `Message` is missing or carries no `follow` marker;
once the newest packet carries a truthy `ListItems`, drop the header and trailer
and resolve with the aggregated list.  (If the header itself carried both a
`follow` marker and a truthy `ListItems`, the source would throw on
`result.pop()` being `undefined`; no theorem below relies on that corner.) -/
def handlerStep (uuid : JStr) (st : HandlerState) (response : JSObj) : HandlerState :=
  match st.outcome with
  | some _ => st
  | none =>
    let result := if getField response "ActionID".data = some (.str uuid)
                  then st.result ++ [response] else st.result
    match result with
    | [] => { result := [], outcome := none }
    | first :: rest =>
      if getField first "Response".data ≠ some (.str "Success".data) then
        { result := first :: rest,
          outcome := some (.rejected (getField first "Message".data)) }
      else if !truthy (getField first "Message".data) ||
              !includesFollowV (getField first "Message".data) then
        { result := first :: rest, outcome := some (.resolvedSingle first) }
      else
        let last := rest.getLast?.getD first
        if truthy (getField last "ListItems".data) then
          { result := rest.dropLast,
            outcome := some (.resolvedList (getField first "Response".data)
              (getField first "Message".data) (getField first "ActionID".data)
              rest.dropLast (jsParseIntOfValue (getField last "ListItems".data))) }
        else
          { result := first :: rest, outcome := none }

/-- Feed a sequence of broadcast packets through a request's `handler`. -/
def handlerRun (uuid : JStr) (packets : List JSObj) : HandlerState :=
  packets.foldl (handlerStep uuid) ⟨[], none⟩

/-- A settled handler ignores all further packets (the listener was removed). -/
theorem handler_done {uuid : JStr} {st : HandlerState} (h : st.outcome.isSome)
    (packets : List JSObj) : packets.foldl (handlerStep uuid) st = st := by
  induction packets with
  | nil => rfl
  | cons p rest ih =>
    rw [List.foldl_cons]
    have hstep : handlerStep uuid st p = st := by
      unfold handlerStep
      cases hout : st.outcome with
      | none => rw [hout] at h; cases h
      | some o => rfl
    rw [hstep, ih]

/-- Packets whose `ActionID` does not match leave a fresh handler untouched. -/
theorem handler_skip {uuid : JStr} {pre : List JSObj}
    (h : ∀ q ∈ pre, getField q "ActionID".data ≠ some (.str uuid)) :
    pre.foldl (handlerStep uuid) ⟨[], none⟩ = ⟨[], none⟩ := by
  induction pre with
  | nil => rfl
  | cons q rest ih =>
    rw [List.foldl_cons]
    have hstep : handlerStep uuid ⟨[], none⟩ q = ⟨[], none⟩ := by
      unfold handlerStep
      simp only
      rw [if_neg (h q (List.mem_cons_self q rest))]
    rw [hstep]
    exact ih (fun x hx => h x (List.mem_cons_of_mem q hx))

/-- C5: the first matching packet with a status other than `Success` rejects the
pending request with exactly that packet's `Message` field as the error detail,
and no later packet (matching or not) affects the settled request. -/
theorem c5_reject_with_message (uuid : JStr) (pre post : List JSObj) (p : JSObj)
    (v : JSValue)
    (hpre : ∀ q ∈ pre, getField q "ActionID".data ≠ some (.str uuid))
    (hmatch : getField p "ActionID".data = some (.str uuid))
    (hresp : getField p "Response".data = some v)
    (hne : v ≠ .str "Success".data) :
    handlerRun uuid (pre ++ p :: post) =
      ⟨[p], some (.rejected (getField p "Message".data))⟩ := by
  unfold handlerRun
  rw [List.foldl_append, handler_skip hpre, List.foldl_cons]
  have hstep : handlerStep uuid ⟨[], none⟩ p =
      ⟨[p], some (.rejected (getField p "Message".data))⟩ := by
    unfold handlerStep
    simp only
    rw [if_pos hmatch]
    simp only [List.nil_append]
    rw [if_pos (by rw [hresp]; exact fun hc => hne (Option.some.inj hc))]
  rw [hstep]
  exact handler_done (by rfl) post

/-- Concrete instantiation of `c5_reject_with_message`: a `Permission denied` error
response rejects the request with exactly that message, and a later matching
packet changes nothing. -/
theorem c5_reject_with_message_witness :
    handlerRun "u".data
      [[("Response".data, JSValue.str "Error".data),
        ("Message".data, JSValue.str "Permission denied".data),
        ("ActionID".data, JSValue.str "u".data)],
       [("Response".data, JSValue.str "Success".data),
        ("ActionID".data, JSValue.str "u".data)]] =
      ⟨[[("Response".data, JSValue.str "Error".data),
         ("Message".data, JSValue.str "Permission denied".data),
         ("ActionID".data, JSValue.str "u".data)]],
       some (.rejected (some (.str "Permission denied".data)))⟩ := by
  have h := c5_reject_with_message "u".data []
    [[("Response".data, JSValue.str "Success".data),
      ("ActionID".data, JSValue.str "u".data)]]
    [("Response".data, JSValue.str "Error".data),
     ("Message".data, JSValue.str "Permission denied".data),
     ("ActionID".data, JSValue.str "u".data)]
    (.str "Error".data) (by simp) (by decide) (by decide) (by decide)
  rw [List.nil_append] at h
  rw [h]
  decide

/-- While the first packet is a `follow`-marked `Success` header and no later
packet has carried a truthy `ListItems` yet, the handler keeps accumulating
matching packets in receipt order and stays pending. -/
theorem handler_accum (uuid : JStr) (hdr : JSObj) (msg : JStr)
    (hhdrR : getField hdr "Response".data = some (.str "Success".data))
    (hhdrM : getField hdr "Message".data = some (.str msg))
    (hmsgT : msg ≠ []) (hmsgF : jsIncludes msg "follow".data = true) :
    ∀ (items acc : List JSObj),
      (∀ q ∈ items, getField q "ActionID".data = some (.str uuid) ∧
        truthy (getField q "ListItems".data) = false) →
      items.foldl (handlerStep uuid) ⟨hdr :: acc, none⟩ =
        ⟨hdr :: (acc ++ items), none⟩ := by
  intro items
  induction items with
  | nil =>
    intro acc _
    simp
  | cons q rest ih =>
    intro acc h
    rw [List.foldl_cons]
    have hq := h q (List.mem_cons_self q rest)
    have hstep : handlerStep uuid ⟨hdr :: acc, none⟩ q = ⟨hdr :: (acc ++ [q]), none⟩ := by
      unfold handlerStep
      simp only
      rw [if_pos hq.1]
      simp only [List.cons_append]
      rw [if_neg (by rw [hhdrR]; simp)]
      rw [if_neg (by rw [hhdrM]; simp [truthy, includesFollowV, hmsgT, hmsgF])]
      rw [List.getLast?_concat]
      simp only [Option.getD_some]
      rw [if_neg (by rw [hq.2]; simp)]
    rw [hstep]
    rw [ih (acc ++ [q]) (fun x hx => h x (List.mem_cons_of_mem q hx))]
    simp

/-- C2 (amended): for a multi-packet list response — `Success` header whose
`Message` contains `follow`, item packets (matching, no truthy `ListItems`),
and a trailer with a truthy `ListItems` — the aggregated response's `List` is
exactly the item packets in receipt order, and its `ListItems` is the integer
parse of the trailer's declared `ListItems` value (which is NOT checked against
the length of `List`). -/
theorem c2_list_aggregation_amended (uuid : JStr) (hdr trl : JSObj)
    (items : List JSObj) (msg : JStr)
    (hhdrA : getField hdr "ActionID".data = some (.str uuid))
    (hhdrR : getField hdr "Response".data = some (.str "Success".data))
    (hhdrM : getField hdr "Message".data = some (.str msg))
    (hmsgT : msg ≠ [])
    (hmsgF : jsIncludes msg "follow".data = true)
    (hhdrL : truthy (getField hdr "ListItems".data) = false)
    (hitems : ∀ q ∈ items, getField q "ActionID".data = some (.str uuid) ∧
        truthy (getField q "ListItems".data) = false)
    (htrlA : getField trl "ActionID".data = some (.str uuid))
    (htrlL : truthy (getField trl "ListItems".data) = true) :
    handlerRun uuid (hdr :: items ++ [trl]) =
      ⟨items, some (.resolvedList (some (.str "Success".data)) (some (.str msg))
        (getField hdr "ActionID".data) items
        (jsParseIntOfValue (getField trl "ListItems".data)))⟩ := by
  unfold handlerRun
  simp only [List.foldl_append, List.foldl_cons, List.foldl_nil]
  have hstep0 : handlerStep uuid ⟨[], none⟩ hdr = ⟨[hdr], none⟩ := by
    unfold handlerStep
    simp only
    rw [if_pos hhdrA]
    simp only [List.nil_append]
    rw [if_neg (by rw [hhdrR]; simp)]
    rw [if_neg (by rw [hhdrM]; simp [truthy, includesFollowV, hmsgT, hmsgF])]
    simp only [List.getLast?_nil, Option.getD_none]
    rw [if_neg (by rw [hhdrL]; simp)]
  rw [hstep0]
  rw [handler_accum uuid hdr msg hhdrR hhdrM hmsgT hmsgF items [] hitems]
  simp only [List.nil_append]
  unfold handlerStep
  simp only
  rw [if_pos htrlA]
  simp only [List.cons_append]
  rw [if_neg (by rw [hhdrR]; simp)]
  rw [if_neg (by rw [hhdrM]; simp [truthy, includesFollowV, hmsgT, hmsgF])]
  rw [List.getLast?_concat]
  simp only [Option.getD_some]
  rw [if_pos htrlL]
  rw [List.dropLast_concat]
  rw [hhdrR, hhdrM]

/-- C2 (counterexample): a list response whose trailer declares `ListItems: 2`
while zero item packets arrived resolves with `ListItems = 2` but an empty
`List`, so the declared count does not equal the number of collected packets. -/
theorem c2_list_count_counterexample :
    handlerRun "u".data
      [[("Response".data, JSValue.str "Success".data),
        ("Message".data, JSValue.str "Peers will follow".data),
        ("ActionID".data, JSValue.str "u".data)],
       [("EventList".data, JSValue.str "Complete".data),
        ("ListItems".data, JSValue.str "2".data),
        ("ActionID".data, JSValue.str "u".data)]] =
      ⟨[], some (.resolvedList (some (.str "Success".data))
        (some (.str "Peers will follow".data)) (some (.str "u".data))
        [] (some 2))⟩ ∧
    (2 : Int) ≠ (([] : List JSObj).length : Int) := by
  constructor
  · decide
  · decide

/-- Concrete instantiation of `c2_list_aggregation_amended`: header, one item,
trailer declaring `ListItems: 1` aggregates to a one-element list with
`ListItems = 1`. -/
theorem c2_list_aggregation_witness :
    handlerRun "u".data
      [[("Response".data, JSValue.str "Success".data),
        ("Message".data, JSValue.str "Peers will follow".data),
        ("ActionID".data, JSValue.str "u".data)],
       [("ObjectName".data, JSValue.str "100".data),
        ("ActionID".data, JSValue.str "u".data)],
       [("EventList".data, JSValue.str "Complete".data),
        ("ListItems".data, JSValue.str "1".data),
        ("ActionID".data, JSValue.str "u".data)]] =
      ⟨[[("ObjectName".data, JSValue.str "100".data),
         ("ActionID".data, JSValue.str "u".data)]],
       some (.resolvedList (some (.str "Success".data))
        (some (.str "Peers will follow".data)) (some (.str "u".data))
        [[("ObjectName".data, JSValue.str "100".data),
          ("ActionID".data, JSValue.str "u".data)]] (some 1))⟩ := by
  have h := c2_list_aggregation_amended "u".data
    [("Response".data, JSValue.str "Success".data),
     ("Message".data, JSValue.str "Peers will follow".data),
     ("ActionID".data, JSValue.str "u".data)]
    [("EventList".data, JSValue.str "Complete".data),
     ("ListItems".data, JSValue.str "1".data),
     ("ActionID".data, JSValue.str "u".data)]
    [[("ObjectName".data, JSValue.str "100".data),
      ("ActionID".data, JSValue.str "u".data)]]
    "Peers will follow".data
    (by decide) (by decide) (by decide) (by decide) (by decide) (by decide)
    (by decide) (by decide) (by decide)
  have h2 : handlerRun "u".data
      [[("Response".data, JSValue.str "Success".data),
        ("Message".data, JSValue.str "Peers will follow".data),
        ("ActionID".data, JSValue.str "u".data)],
       [("ObjectName".data, JSValue.str "100".data),
        ("ActionID".data, JSValue.str "u".data)],
       [("EventList".data, JSValue.str "Complete".data),
        ("ListItems".data, JSValue.str "1".data),
        ("ActionID".data, JSValue.str "u".data)]] =
      ⟨[[("ObjectName".data, JSValue.str "100".data),
         ("ActionID".data, JSValue.str "u".data)]],
       some (.resolvedList (some (.str "Success".data))
        (some (.str "Peers will follow".data))
        (getField [("Response".data, JSValue.str "Success".data),
          ("Message".data, JSValue.str "Peers will follow".data),
          ("ActionID".data, JSValue.str "u".data)] "ActionID".data)
        [[("ObjectName".data, JSValue.str "100".data),
          ("ActionID".data, JSValue.str "u".data)]]
        (jsParseIntOfValue (getField [("EventList".data, JSValue.str "Complete".data),
          ("ListItems".data, JSValue.str "1".data),
          ("ActionID".data, JSValue.str "u".data)] "ListItems".data)))⟩ := h
  rw [h2]
  decide

/-- The result of an awaited `send`/`write` as observed by `login`
(asterisk-manager-interface.ts lines 341-372): `none` while the promise is still
pending, `Except.error` when the handler rejected, `Except.ok` with the value the
handler resolved. -/
def sendResult (uuid : JStr) (packets : List JSObj) :
    Option (Except (Option JSValue) WriteOutcome) :=
  match handlerRun uuid packets with
  | ⟨_, none⟩ => none
  | ⟨_, some (.rejected m)⟩ => some (.error m)
  | ⟨_, some o⟩ => some (.ok o)

/-- `AsteriskManagerInterface.login` (lines 341-372), abstracted over the socket
setup done by `init()`: await the `send` of the `Login` action correlated by
`uuid` against the server's packets, then return whether the response's status
was `Success`.  A rejection of `send` propagates out of `login` (there is no
`try`/`catch` in the source), modelled by `Except.error`. -/
def login (uuid : JStr) (packets : List JSObj) :
    Option (Except (Option JSValue) Bool) :=
  match sendResult uuid packets with
  | none => none
  | some (.error e) => some (.error e)
  | some (.ok (.resolvedSingle p)) =>
    some (.ok (decide (getField p "Response".data = some (.str "Success".data))))
  | some (.ok (.resolvedList r _ _ _ _)) =>
    some (.ok (decide (r = some (.str "Success".data))))
  | some (.ok (.rejected _)) => some (.ok false)

/-- C1 (code bug): when the single correlated response to the `Login` action has
`Response: Error` and `Message: Authentication failed`, `login()` does not return
`false` — the `send` it awaits rejects with that message and the rejection
propagates to `login`'s caller.  The claimed `false` return never happens
(second conjunct). -/
theorem c1_login_raises_on_error_response :
    login "u".data
      [[("Response".data, JSValue.str "Error".data),
        ("Message".data, JSValue.str "Authentication failed".data),
        ("ActionID".data, JSValue.str "u".data)]] =
      some (.error (some (.str "Authentication failed".data))) ∧
    login "u".data
      [[("Response".data, JSValue.str "Error".data),
        ("Message".data, JSValue.str "Authentication failed".data),
        ("ActionID".data, JSValue.str "u".data)]] ≠ some (.ok false) := by
  constructor
  · decide
  · decide

/-- The auto-login guard at the top of `AsteriskManagerInterface.write`
(lines 487-491): a non-`Login` action sent while not authenticated first awaits
`login()`; a `login()` rejection propagates, a `false` return raises
`Connection not authenticated`.  `Except.ok ()` means the write proceeds. -/
def writeAuthGuard (authenticated : Bool) (action : JStr)
    (loginResult : Except (Option JSValue) Bool) : Except (Option JSValue) Unit :=
  if authenticated = false ∧ action ≠ "Login".data then
    match loginResult with
    | .error e => .error e
    | .ok false => .error (some (.str "Connection not authenticated".data))
    | .ok true => .ok ()
  else .ok ()

/-- C6: a `send` of a non-`Login` action while not authenticated consults
`login()` first, and whenever that login attempt does not succeed — whether it
returned `false` or threw — the original `send` rejects instead of proceeding. -/
theorem c6_auto_login_failure_rejects (action : JStr)
    (loginResult : Except (Option JSValue) Bool)
    (haction : action ≠ "Login".data)
    (hfail : loginResult ≠ .ok true) :
    ∃ e, writeAuthGuard false action loginResult = .error e := by
  unfold writeAuthGuard
  rw [if_pos ⟨rfl, haction⟩]
  match loginResult with
  | .error e => exact ⟨e, rfl⟩
  | .ok false => exact ⟨some (.str "Connection not authenticated".data), rfl⟩
  | .ok true => exact absurd rfl hfail

/-- Concrete instantiation of `c6_auto_login_failure_rejects` for a `Ping` action
and a failed login. -/
theorem c6_auto_login_failure_witness :
    ∃ e, writeAuthGuard false "Ping".data (.ok false) = .error e :=
  c6_auto_login_failure_rejects "Ping".data (.ok false) (by decide) (by decide)

/-- Listener registry of a Node `events.EventEmitter`, which
`AsteriskManagerInterface` extends: `on` appends a listener that stays registered
until removed explicitly; `emit` invokes every listener registered for the event,
in registration order, leaving the registry unchanged.  Listeners are identified
by `Nat`. -/
structure Emitter where
  listeners : List (JStr × Nat)
deriving DecidableEq

/-- `EventEmitter.on` / `AsteriskManagerInterface.on`: append the listener. -/
def Emitter.on (e : Emitter) (ev : JStr) (l : Nat) : Emitter :=
  ⟨e.listeners ++ [(ev, l)]⟩

/-- `AsteriskManagerInterface.once` (asterisk-manager-interface.ts lines 97-101):
its body is `return super.on(event, listener)` — it delegates to `on`, not to the
one-shot `EventEmitter.once`. -/
def Emitter.once (e : Emitter) (ev : JStr) (l : Nat) : Emitter :=
  e.on ev l

/-- `EventEmitter.emit`: the registry is unchanged and every listener of the
event fires, in order. -/
def Emitter.emit (e : Emitter) (ev : JStr) : Emitter × List Nat :=
  (e, (e.listeners.filter (fun p => p.1 == ev)).map Prod.snd)

/-- C9: the public `once()` behaves identically to `on()`: a listener registered
via `once()` gives the same registry as `on()`, remains registered after a
matching event is emitted, and is invoked by that (and hence every subsequent)
matching event until removed explicitly. -/
theorem c9_once_behaves_like_on (e : Emitter) (ev : JStr) (l : Nat) :
    Emitter.once e ev l = Emitter.on e ev l ∧
    (Emitter.emit (Emitter.once e ev l) ev).1 = Emitter.once e ev l ∧
    l ∈ (Emitter.emit (Emitter.once e ev l) ev).2 := by
  refine ⟨rfl, rfl, ?_⟩
  simp [Emitter.emit, Emitter.once, Emitter.on]
